import Mathlib

/-!
Shallow embedding of the Obsidian canvas-minimap plugin's core logic
(geometry primitives, bounds aggregation, the minimap renderer, the
click hit-test and navigation handler, and the reload lifecycle),
translated from the TypeScript source.  Coordinates are modelled as
rationals; the host DOM is modelled as an explicit list of drawn
shapes grouped in document order.
-/

/-- 2D vector, from `class Vector2`. -/
structure Vector2 where
  x : ℚ
  y : ℚ
deriving DecidableEq

/-- `Vector2.add`. -/
def Vector2.add (a b : Vector2) : Vector2 := ⟨a.x + b.x, a.y + b.y⟩

/-- `Vector2.sub`. -/
def Vector2.sub (a b : Vector2) : Vector2 := ⟨a.x - b.x, a.y - b.y⟩

/-- `Vector2.lenSq`. -/
def Vector2.lenSq (a : Vector2) : ℚ := a.x * a.x + a.y * a.y

/-- Axis-aligned bounding box, from `class BoundingBox`. -/
structure BoundingBox where
  minX : ℚ
  minY : ℚ
  maxX : ℚ
  maxY : ℚ
deriving DecidableEq

/-- `BoundingBox.width`. -/
def BoundingBox.width (b : BoundingBox) : ℚ := b.maxX - b.minX

/-- `BoundingBox.height`. -/
def BoundingBox.height (b : BoundingBox) : ℚ := b.maxY - b.minY

/-- `BoundingBox.contains` (inclusive on all four edges). -/
def BoundingBox.contains (b : BoundingBox) (p : Vector2) : Bool :=
  decide (b.minX ≤ p.x ∧ p.x ≤ b.maxX ∧ b.minY ≤ p.y ∧ p.y ≤ b.maxY)

/-- `BoundingBox.isValid`. -/
def BoundingBox.isValid (b : BoundingBox) : Bool :=
  decide (b.minX < b.maxX ∧ b.minY < b.maxY)

/-- Pointwise union of two boxes (smallest box containing both). -/
def BoundingBox.union (a b : BoundingBox) : BoundingBox :=
  ⟨min a.minX b.minX, min a.minY b.minY, max a.maxX b.maxX, max a.maxY b.maxY⟩

/-- `outer` contains the whole of `inner`. -/
def BoundingBox.containsBox (outer inner : BoundingBox) : Prop :=
  outer.minX ≤ inner.minX ∧ outer.minY ≤ inner.minY ∧
    inner.maxX ≤ outer.maxX ∧ inner.maxY ≤ outer.maxY

instance (o i : BoundingBox) : Decidable (o.containsBox i) := by
  unfold BoundingBox.containsBox
  exact inferInstance

/-- Union of a list of boxes folded onto an initial accumulator. -/
def unionBoxes (init : BoundingBox) (l : List BoundingBox) : BoundingBox :=
  l.foldl BoundingBox.union init

/-- Grow a box by `m` on each of the four sides. -/
def expandBy (b : BoundingBox) (m : ℚ) : BoundingBox :=
  ⟨b.minX - m, b.minY - m, b.maxX + m, b.maxY + m⟩

/-- A canvas node as read by `renderMinimap`: `id`, geometry, the
`unknownData.type === 'group'` test, and the optional group label. -/
structure CanvasNode where
  id : String
  x : ℚ
  y : ℚ
  width : ℚ
  height : ℚ
  isGroup : Bool
  label : Option String
deriving DecidableEq

/-- The bounding box of a single node: corners `(x, y)` and
`(x + width, y + height)`. -/
def nodeBox (n : CanvasNode) : BoundingBox :=
  ⟨n.x, n.y, n.x + n.width, n.y + n.height⟩

/-- One end of an edge (`e.from` / `e.to`): a node and a side token. -/
structure EdgeEnd where
  node : CanvasNode
  side : String
deriving DecidableEq

/-- A canvas edge.  `fromEnd`/`toEnd` model `e.from`/`e.to`; `fromSide`
models the separate top-level `e.fromSide` property the renderer reads
when choosing the d3 link family. -/
structure CanvasEdge where
  fromEnd : EdgeEnd
  toEnd : EdgeEnd
  fromSide : String
deriving DecidableEq

/-- The canvas content handed to the renderer, in iteration order. -/
structure Canvas where
  nodes : List CanvasNode
  edges : List CanvasEdge
deriving DecidableEq

/-- Navigation strategies (`type CanvasNavigationStrategy`). -/
inductive CanvasNavigationStrategy where
  | PAN
  | ZOOM
  | NONE
deriving DecidableEq

/-- Plugin settings (`interface CanvasMinimapSettings`). -/
structure CanvasMinimapSettings where
  width : ℚ
  height : ℚ
  margin : ℚ
  fontSize : ℚ
  fontColor : String
  side : String
  enabled : Bool
  backgroundColor : String
  groupColor : String
  nodeColor : String
  hijackToolbar : Bool
  drawActiveViewport : Bool
  primaryNavigationStrategy : CanvasNavigationStrategy
  secondaryNavigationStrategy : CanvasNavigationStrategy
deriving DecidableEq

/-- `DEFAULT_SETTINGS`. -/
def DEFAULT_SETTINGS : CanvasMinimapSettings :=
  { width := 400, height := 300, margin := 100, fontSize := 10
    fontColor := "white", side := "bottom-right", enabled := true
    backgroundColor := "#f3f0e933", groupColor := "#bdd5de55"
    nodeColor := "#c3d6d7", hijackToolbar := false
    drawActiveViewport := true
    primaryNavigationStrategy := .ZOOM
    secondaryNavigationStrategy := .PAN }

/-- `sidePositionOf` from `renderMinimap`: the edge-anchor resolver.
An unknown side token throws, modelled as `Except.error`. -/
def sidePositionOf (node : CanvasNode) (side : String) : Except String Vector2 :=
  let origin : Vector2 := ⟨node.x, node.y⟩
  let radius : Vector2 := ⟨node.width / 2, node.height / 2⟩
  let center := Vector2.add origin radius
  if side == "left" then .ok (Vector2.sub center ⟨radius.x, 0⟩)
  else if side == "right" then .ok (Vector2.add center ⟨radius.x, 0⟩)
  else if side == "top" then .ok (Vector2.sub center ⟨0, radius.y⟩)
  else if side == "bottom" then .ok (Vector2.add center ⟨0, radius.y⟩)
  else .error ("invalid side " ++ side)

/-- The d3 curve family chosen by `linkAnchor` inside the edge loop. -/
inductive LinkFamily where
  | horizontal
  | vertical
deriving DecidableEq

/-- `linkAnchor`: `d3.linkHorizontal()` for "left"/"right", else
`d3.linkVertical()`. -/
def linkAnchor (side : String) : LinkFamily :=
  if side == "left" || side == "right" then .horizontal else .vertical

/-- One step of the node scan in `renderMinimap`: expand the
accumulator by one node's four corners. -/
def aggregateStep (bb : BoundingBox) (node : CanvasNode) : BoundingBox :=
  ⟨min bb.minX node.x, min bb.minY node.y,
    max bb.maxX (node.x + node.width), max bb.maxY (node.y + node.height)⟩

/-- The `bbox` computed by `renderMinimap`'s `nodes.forEach` loop,
starting from `new BoundingBox()` = `(0,0,0,0)`. -/
def aggregateBBox (nodes : List CanvasNode) : BoundingBox :=
  nodes.foldl aggregateStep ⟨0, 0, 0, 0⟩

/-- `this.canvas_bounds`: the aggregate box grown by the margin on
each side (source lines assigning `new BoundingBox(bbox.minX - margin, ...)`). -/
def canvasBoundsOf (nodes : List CanvasNode) (margin : ℚ) : BoundingBox :=
  expandBy (aggregateBBox nodes) margin

/-- Modelled from the spec: "ContentBounds ⊇ every individual node's
bounding box, expanded by exactly `margin` on each side" — the union
of the node boxes alone (no zero-initialized accumulator), expanded by
the margin; `none` for an empty node set.  Used only to compare the
spec's wording against `canvasBoundsOf`. -/
def specContentBounds (nodes : List CanvasNode) (margin : ℚ) : Option BoundingBox :=
  match nodes.map nodeBox with
  | [] => none
  | b :: bs => some (expandBy (unionBoxes b bs) margin)

/-- The label de-scaling factor computed inside the group loop:
`min(width / bbox.width, height / bbox.height)` over the pre-margin
aggregate `bbox`. -/
def labelScale (bbox : BoundingBox) (s : CanvasMinimapSettings) : ℚ :=
  min (s.width / (bbox.maxX - bbox.minX)) (s.height / (bbox.maxY - bbox.minY))

/-- The uniform scale a `viewBox` with `preserveAspectRatio
xMidYMid meet` applies when projecting the box `vb` onto a
`width` × `height` surface: `min(W / vb.width, H / vb.height)`. -/
def viewBoxScale (vb : BoundingBox) (s : CanvasMinimapSettings) : ℚ :=
  min (s.width / vb.width) (s.height / vb.height)

/-- A drawn SVG shape, tagged with the attributes the source sets. -/
inductive Shape where
  | groupRect (id : String) (x y w h : ℚ)
  | groupLabel (label : String) (x y fontSize : ℚ)
  | leafRect (id : String) (x y w h : ℚ)
  | edgePath (family : LinkFamily) (fromPos toPos : Vector2)
  | viewportRect
deriving DecidableEq

/-- The shapes emitted for one group node: its rect, then its label
text (if the label string is truthy), with the de-scaled font size. -/
def groupShapesOf (bbox : BoundingBox) (s : CanvasMinimapSettings)
    (n : CanvasNode) : List Shape :=
  Shape.groupRect n.id n.x n.y n.width n.height ::
    (match n.label with
     | some l =>
       if l = "" then []
       else [Shape.groupLabel l n.x n.y (s.fontSize / labelScale bbox s)]
     | none => [])

/-- Drawing one edge: resolve both anchors via `sidePositionOf`
(the `from` anchor first, as the source does), then build the path
with the family chosen from the top-level `fromSide` property. -/
def renderEdge (e : CanvasEdge) : Except String Shape :=
  match sidePositionOf e.fromEnd.node e.fromEnd.side,
        sidePositionOf e.toEnd.node e.toEnd.side with
  | .ok fromPos, .ok toPos =>
    .ok (.edgePath (linkAnchor e.fromSide) fromPos toPos)
  | .error msg, _ => .error msg
  | .ok _, .error msg => .error msg

/-- The `edges.forEach` loop, stopping at the first failing edge. -/
def renderEdges : List CanvasEdge → Except String (List Shape)
  | [] => .ok []
  | e :: rest =>
    match renderEdge e, renderEdges rest with
    | .ok sh, .ok shs => .ok (sh :: shs)
    | .error msg, _ => .error msg
    | .ok _, .error msg => .error msg

/-- The group nodes, in scan order (`node.unknownData?.type === 'group'`). -/
def groupsOf (c : Canvas) : List CanvasNode := c.nodes.filter (·.isGroup)

/-- The non-group ("children") nodes, in scan order. -/
def childrenOf (c : Canvas) : List CanvasNode :=
  c.nodes.filter (fun n => !n.isGroup)

/-- The children of the `minimap_fg` group, in document order: group
rects and labels, then leaf rects, then edge paths. -/
def fgShapes (c : Canvas) (s : CanvasMinimapSettings) :
    Except String (List Shape) :=
  match renderEdges c.edges with
  | .error msg => .error msg
  | .ok es =>
    .ok (((groupsOf c).map (groupShapesOf (aggregateBBox c.nodes) s)).flatten
      ++ (childrenOf c).map (fun n => Shape.leafRect n.id n.x n.y n.width n.height)
      ++ es)

/-- An SVG `g` element with its `id` attribute and child shapes. -/
structure SvgGroup where
  gid : String
  children : List Shape
deriving DecidableEq

/-- The minimap SVG: its `viewBox` attribute and its `g` children in
document order. -/
structure SvgState where
  viewBox : Option BoundingBox
  groups : List SvgGroup
deriving DecidableEq

/-- The SVG as it stands right after creation, before any render. -/
def emptySvg : SvgState := ⟨none, []⟩

/-- `renderMinimap`: set the `viewBox` to the margin-expanded bounds
and append the `minimap_bg` group (which ends up holding only the
`minimap_viewport` rect) followed by the `minimap_fg` group holding
the group/leaf/edge shapes. -/
def renderMinimap (svg : SvgState) (c : Canvas) (s : CanvasMinimapSettings) :
    Except String SvgState :=
  match fgShapes c s with
  | .error msg => .error msg
  | .ok fgs =>
    .ok { viewBox := some (canvasBoundsOf c.nodes s.margin)
          groups := svg.groups ++
            [⟨"minimap_bg", [Shape.viewportRect]⟩, ⟨"minimap_fg", fgs⟩] }

/-- SVG paint order: document order, i.e. the concatenation of each
group's children; earlier shapes are painted below later ones. -/
def paintOrder (st : SvgState) : List Shape :=
  (st.groups.map SvgGroup.children).flatten

/-- `unloadMinimap`: the whole `#_minimap_` element is removed. -/
def unloadMinimap (_st : Option SvgState) : Option SvgState := none

/-- `setupMinimap`: when enabled, create the SVG if the minimap is
absent, then run `renderMinimap` against it. -/
def setupMinimap (st : Option SvgState) (c : Canvas)
    (s : CanvasMinimapSettings) : Except String (Option SvgState) :=
  if s.enabled then
    match st with
    | none => (renderMinimap emptySvg c s).map some
    | some svg => (renderMinimap svg c s).map some
  else .ok st

/-- `reloadMinimap`: teardown then setup. -/
def reloadMinimap (st : Option SvgState) (c : Canvas)
    (s : CanvasMinimapSettings) : Except String (Option SvgState) :=
  setupMinimap (unloadMinimap st) c s

/-- A navigation call issued against the active canvas. -/
inductive NavAction where
  | panTo (x y : ℚ)
  | zoomToBbox (b : BoundingBox)
deriving DecidableEq

/-- The navigation tail of the click handler: pick the secondary
strategy when the Ctrl modifier is held, the primary otherwise, and
issue the corresponding canvas call on the resolved box. -/
def navigationActions (s : CanvasMinimapSettings) (modifierCtrl : Bool)
    (bbox : BoundingBox) : List NavAction :=
  let strat := if modifierCtrl then s.secondaryNavigationStrategy
               else s.primaryNavigationStrategy
  if strat = .PAN then
    [NavAction.panTo (bbox.minX + (bbox.maxX - bbox.minX) / 2)
      (bbox.minY + (bbox.maxY - bbox.minY) / 2)]
  else if strat = .ZOOM then [NavAction.zoomToBbox bbox]
  else []

/-- Squared distance from the click point to a box's `(minX, minY)`
corner, as computed in the click handler. -/
def distSqTo (p : Vector2) (b : BoundingBox) : ℚ :=
  Vector2.lenSq ⟨b.minX - p.x, b.minY - p.y⟩

/-- `active_canvas.nodes?.get(id)`, yielding the node's diagram-space
`bbox` when the id is present. -/
def lookupNode (nodes : List (String × BoundingBox)) (id : String) :
    Option BoundingBox :=
  (nodes.find? (fun kv => kv.1 == id)).map Prod.snd

/-- The `target_nodes` array: the drawn non-overlay rects whose box
contains the click point, each mapped through the node lookup. -/
def clickTargets (nodes : List (String × BoundingBox))
    (rects : List (String × BoundingBox)) (p : Vector2) :
    List (Option BoundingBox) :=
  (rects.filter (fun r => r.2.contains p)).map (fun r => lookupNode nodes r.1)

/-- The `for (const n of target_nodes)` selection loop: keep the
candidate of strictly smaller squared corner distance; dereferencing
an unresolved (undefined) candidate throws. -/
def nearestLoop (p : Vector2) :
    BoundingBox → ℚ → List (Option BoundingBox) → Except String BoundingBox
  | best, _, [] => .ok best
  | _, _, none :: _ => .error "TypeError: cannot read bbox of undefined"
  | best, bestD, some b :: rest =>
    if distSqTo p b < bestD then nearestLoop p b (distSqTo p b) rest
    else nearestLoop p best bestD rest

/-- The SVG click handler from `setupMinimap`: reject clicks outside
the drawn content's bounding box, collect containing rects, resolve
the nearest node box (initialized to the first candidate, walked over
the whole candidate list), and dispatch the navigation strategy. -/
def onSvgClick (nodes rects : List (String × BoundingBox))
    (svgBBox : BoundingBox) (p : Vector2) (modifierCtrl : Bool)
    (s : CanvasMinimapSettings) : Except String (List NavAction) :=
  if svgBBox.contains p then
    match clickTargets nodes rects p with
    | [] => .ok []
    | none :: _ => .error "TypeError: cannot read bbox of undefined"
    | some b0 :: rest =>
      match nearestLoop p b0 (distSqTo p b0) (some b0 :: rest) with
      | .ok best => .ok (navigationActions s modifierCtrl best)
      | .error msg => .error msg
  else .ok []

/-- True exactly when an `Except` computation succeeded (the handler
ran to completion without throwing). -/
def exceptOk {α : Type} : Except String α → Bool
  | .ok _ => true
  | .error _ => false

/-! ### Helper lemmas -/

theorem containsBox_refl (b : BoundingBox) : b.containsBox b :=
  ⟨le_refl _, le_refl _, le_refl _, le_refl _⟩

theorem containsBox_trans {a b c : BoundingBox} (h₁ : a.containsBox b)
    (h₂ : b.containsBox c) : a.containsBox c :=
  ⟨le_trans h₁.1 h₂.1, le_trans h₁.2.1 h₂.2.1,
    le_trans h₂.2.2.1 h₁.2.2.1, le_trans h₂.2.2.2 h₁.2.2.2⟩

theorem union_containsBox_left (a b : BoundingBox) :
    (a.union b).containsBox a :=
  ⟨min_le_left _ _, min_le_left _ _, le_max_left _ _, le_max_left _ _⟩

theorem union_containsBox_right (a b : BoundingBox) :
    (a.union b).containsBox b :=
  ⟨min_le_right _ _, min_le_right _ _, le_max_right _ _, le_max_right _ _⟩

theorem unionBoxes_containsBox_init (l : List BoundingBox) :
    ∀ init : BoundingBox, (unionBoxes init l).containsBox init := by
  induction l with
  | nil => intro init; exact containsBox_refl init
  | cons b t ih =>
    intro init
    exact containsBox_trans (ih (init.union b)) (union_containsBox_left init b)

theorem unionBoxes_containsBox_mem (l : List BoundingBox) :
    ∀ init b, b ∈ l → (unionBoxes init l).containsBox b := by
  induction l with
  | nil => intro _ _ h; cases h
  | cons hd t ih =>
    intro init b hb
    rcases List.mem_cons.mp hb with h | h
    · subst h
      exact containsBox_trans (unionBoxes_containsBox_init t (init.union b))
        (union_containsBox_right init b)
    · exact ih (init.union hd) b h

theorem expandBy_containsBox {a b : BoundingBox} {m : ℚ}
    (h : a.containsBox b) (hm : 0 ≤ m) : (expandBy a m).containsBox b := by
  obtain ⟨h1, h2, h3, h4⟩ := h
  exact ⟨by simpa [expandBy] using by linarith,
    by simpa [expandBy] using by linarith,
    by simpa [expandBy] using by linarith,
    by simpa [expandBy] using by linarith⟩

theorem aggregateBBox_eq_unionBoxes (nodes : List CanvasNode) :
    aggregateBBox nodes = unionBoxes ⟨0, 0, 0, 0⟩ (nodes.map nodeBox) := by
  unfold aggregateBBox unionBoxes
  rw [List.foldl_map]
  rfl

/-! ### C1 -/

/-- C1 (counterexample): with the single node at `(10,10)` of size
`5×5` and the default margin `100`, the spec-worded union of the node
boxes expanded by the margin is `(-90,-90,115,115)`, but the bounds
computed by the redraw are `(-100,-100,115,115)`: the zero-initialized
accumulator drags the pre-margin extent to the origin, so the computed
bounds are not the node-box union expanded by exactly the margin. -/
theorem C1_counterexample :
    specContentBounds [⟨"a", 10, 10, 5, 5, false, none⟩] 100 =
      some ⟨-90, -90, 115, 115⟩ ∧
    canvasBoundsOf [⟨"a", 10, 10, 5, 5, false, none⟩] 100 =
      ⟨-100, -100, 115, 115⟩ ∧
    canvasBoundsOf [⟨"a", 10, 10, 5, 5, false, none⟩] 100 ≠
      ⟨-90, -90, 115, 115⟩ := by
  refine ⟨?_, ?_, ?_⟩ <;>
    simp [specContentBounds, canvasBoundsOf, aggregateBBox, aggregateStep,
      unionBoxes, expandBy, nodeBox, BoundingBox.union, BoundingBox.mk.injEq,
      min_def, max_def] <;> norm_num

/-- C1 (amended): for every node set and nonnegative margin, the
content bounds computed by a redraw contain every individual node's
bounding box; and the bounds equal the union of the node boxes
*together with the zero box `(0,0,0,0)`* — the accumulator `new
BoundingBox()` starts at the zero box, which `isValid()` calls invalid
but which still participates in the min/max scan — expanded by exactly
the margin on each of the four sides. -/
theorem C1_content_bounds (nodes : List CanvasNode) (margin : ℚ) :
    (0 ≤ margin → ∀ n ∈ nodes,
      (canvasBoundsOf nodes margin).containsBox (nodeBox n)) ∧
    canvasBoundsOf nodes margin =
      expandBy (unionBoxes ⟨0, 0, 0, 0⟩ (nodes.map nodeBox)) margin := by
  constructor
  · intro hm n hn
    unfold canvasBoundsOf
    rw [aggregateBBox_eq_unionBoxes]
    exact expandBy_containsBox
      (unionBoxes_containsBox_mem _ _ _ (List.mem_map_of_mem nodeBox hn)) hm
  · unfold canvasBoundsOf
    rw [aggregateBBox_eq_unionBoxes]

/-- C1 witness: the amended bounds theorem evaluated at the concrete
one-node canvas with margin 100. -/
theorem C1_content_bounds_witness :
    (canvasBoundsOf [⟨"a", 10, 10, 5, 5, false, none⟩] 100).containsBox
      (nodeBox ⟨"a", 10, 10, 5, 5, false, none⟩) :=
  (C1_content_bounds [⟨"a", 10, 10, 5, 5, false, none⟩] 100).1
    (by norm_num) _ (List.mem_singleton.mpr rfl)

/-! ### Hit-resolution loop lemmas -/

theorem nearestLoop_spec (p : Vector2) (cs : List BoundingBox) :
    ∀ best : BoundingBox,
      ∃ r pre post,
        nearestLoop p best (distSqTo p best) (cs.map some) = .ok r ∧
        best :: cs = pre ++ r :: post ∧
        (∀ c ∈ pre, distSqTo p r < distSqTo p c) ∧
        (∀ c ∈ best :: cs, distSqTo p r ≤ distSqTo p c) := by
  induction cs with
  | nil =>
    intro best
    exact ⟨best, [], [], rfl, rfl, by simp, by simp⟩
  | cons b rest ih =>
    intro best
    by_cases h : distSqTo p b < distSqTo p best
    · obtain ⟨r, pre, post, hrun, hdec, hpre, hmin⟩ := ih b
      refine ⟨r, best :: pre, post, ?_, ?_, ?_, ?_⟩
      · simpa [nearestLoop, h] using hrun
      · simpa using hdec
      · intro c hc
        rcases List.mem_cons.mp hc with h1 | h1
        · subst h1
          exact lt_of_le_of_lt (hmin b (List.mem_cons_self b rest)) h
        · exact hpre c h1
      · intro c hc
        rcases List.mem_cons.mp hc with h1 | h1
        · subst h1
          exact le_of_lt (lt_of_le_of_lt (hmin b (List.mem_cons_self b rest)) h)
        · exact hmin c h1
    · obtain ⟨r, pre, post, hrun, hdec, hpre, hmin⟩ := ih best
      cases pre with
      | nil =>
        simp only [List.nil_append, List.cons.injEq] at hdec
        obtain ⟨hbr, hrp⟩ := hdec
        rw [← hbr] at hrun hmin
        refine ⟨best, [], b :: rest, ?_, by simp, by simp, ?_⟩
        · simpa [nearestLoop, h] using hrun
        · intro c hc
          rcases List.mem_cons.mp hc with h1 | h1
          · subst h1; exact le_refl _
          rcases List.mem_cons.mp h1 with h2 | h2
          · subst h2; exact not_lt.mp h
          · exact hmin c (List.mem_cons_of_mem _ h2)
      | cons q pre' =>
        simp only [List.cons_append, List.cons.injEq] at hdec
        obtain ⟨hbq, hrest⟩ := hdec
        rw [← hbq] at hpre
        refine ⟨r, best :: b :: pre', post, ?_, ?_, ?_, ?_⟩
        · simpa [nearestLoop, h] using hrun
        · simp [hrest]
        · intro c hc
          rcases List.mem_cons.mp hc with h1 | h1
          · rw [h1]; exact hpre best (List.mem_cons_self _ _)
          rcases List.mem_cons.mp h1 with h2 | h2
          · subst h2
            exact lt_of_lt_of_le (hpre best (List.mem_cons_self _ _)) (not_lt.mp h)
          · exact hpre c (List.mem_cons_of_mem _ h2)
        · intro c hc
          rcases List.mem_cons.mp hc with h1 | h1
          · rw [h1]; exact hmin best (List.mem_cons_self _ _)
          rcases List.mem_cons.mp h1 with h2 | h2
          · subst h2
            exact le_of_lt
              (lt_of_lt_of_le (hpre best (List.mem_cons_self _ _)) (not_lt.mp h))
          · exact hmin c (List.mem_cons_of_mem _ h2)

theorem nearestLoop_allSome (p : Vector2) (ts : List (Option BoundingBox)) :
    ∀ best bestD, (∀ t ∈ ts, t.isSome) →
      ∃ r, nearestLoop p best bestD ts = .ok r := by
  induction ts with
  | nil => exact fun best _ _ => ⟨best, rfl⟩
  | cons t rest ih =>
    intro best bestD hall
    cases t with
    | none => exact absurd (hall none (List.mem_cons_self _ _)) (by simp)
    | some b =>
      by_cases h : distSqTo p b < bestD
      · obtain ⟨r, hr⟩ := ih b (distSqTo p b)
          (fun t ht => hall t (List.mem_cons_of_mem _ ht))
        exact ⟨r, by simpa [nearestLoop, h] using hr⟩
      · obtain ⟨r, hr⟩ := ih best bestD
          (fun t ht => hall t (List.mem_cons_of_mem _ ht))
        exact ⟨r, by simpa [nearestLoop, h] using hr⟩

/-! ### C2 -/

/-- C2: a click contained in exactly one drawn non-overlay rect whose
id resolves selects that rect's node; with several overlapping
candidates the handler returns the candidate splitting the candidate
list as `pre ++ winner :: post` where every earlier candidate has
strictly greater squared corner distance (so on exact ties the
first-seen candidate wins — the first candidate's box is the initial
minimum and is replaced only on strictly smaller distance) and every
candidate has at least the winner's distance. -/
theorem C2_hit_resolution :
    (∀ (nodes rects : List (String × BoundingBox)) (svgB : BoundingBox)
        (p : Vector2) (modifierCtrl : Bool) (s : CanvasMinimapSettings)
        (rid : String) (rb b : BoundingBox),
      svgB.contains p = true →
      rects.filter (fun r => r.2.contains p) = [(rid, rb)] →
      lookupNode nodes rid = some b →
      onSvgClick nodes rects svgB p modifierCtrl s =
        .ok (navigationActions s modifierCtrl b)) ∧
    (∀ (nodes rects : List (String × BoundingBox)) (svgB : BoundingBox)
        (p : Vector2) (modifierCtrl : Bool) (s : CanvasMinimapSettings)
        (c0 : BoundingBox) (cs : List BoundingBox),
      svgB.contains p = true →
      clickTargets nodes rects p = (c0 :: cs).map some →
      ∃ r pre post,
        onSvgClick nodes rects svgB p modifierCtrl s =
          .ok (navigationActions s modifierCtrl r) ∧
        c0 :: cs = pre ++ r :: post ∧
        (∀ c ∈ pre, distSqTo p r < distSqTo p c) ∧
        (∀ c ∈ c0 :: cs, distSqTo p r ≤ distSqTo p c)) := by
  constructor
  · intro nodes rects svgB p modifierCtrl s rid rb b hin hfilter hlook
    have htargets : clickTargets nodes rects p = [some b] := by
      unfold clickTargets
      rw [hfilter]
      simp [hlook]
    have hloop : nearestLoop p b (distSqTo p b) [some b] = .ok b := by
      simp [nearestLoop, lt_irrefl]
    unfold onSvgClick
    rw [hin, htargets]
    simp only [if_true]
    rw [hloop]
  · intro nodes rects svgB p modifierCtrl s c0 cs hin htargets
    obtain ⟨r, pre, post, hrun, hdec, hpre, hmin⟩ := nearestLoop_spec p cs c0
    have hloop : nearestLoop p c0 (distSqTo p c0) (some c0 :: cs.map some) =
        .ok r := by
      simpa [nearestLoop, lt_irrefl] using hrun
    refine ⟨r, pre, post, ?_, hdec, hpre, hmin⟩
    unfold onSvgClick
    rw [hin, htargets]
    simp only [if_true, List.map_cons]
    rw [hloop]

/-- C2 witness: a click at `(5,5)` inside a single drawn rect with a
resolvable id navigates (under the default ZOOM primary strategy) to
that node's box. -/
theorem C2_hit_resolution_witness :
    onSvgClick [("a", ⟨0, 0, 100, 50⟩)] [("a", ⟨0, 0, 100, 50⟩)]
      ⟨0, 0, 100, 50⟩ ⟨5, 5⟩ false DEFAULT_SETTINGS =
      .ok (navigationActions DEFAULT_SETTINGS false ⟨0, 0, 100, 50⟩) :=
  C2_hit_resolution.1 [("a", ⟨0, 0, 100, 50⟩)] [("a", ⟨0, 0, 100, 50⟩)]
    ⟨0, 0, 100, 50⟩ ⟨5, 5⟩ false DEFAULT_SETTINGS "a" ⟨0, 0, 100, 50⟩
    ⟨0, 0, 100, 50⟩
    (by simp [BoundingBox.contains]; norm_num)
    (by simp [List.filter, BoundingBox.contains]; norm_num)
    (by simp [lookupNode, List.find?])

/-! ### C3 -/

/-- C3: for every resolved hit box, the click handler uses the
secondary navigation strategy when the Ctrl modifier is held and the
primary strategy otherwise; strategy PAN issues exactly one center
call at `((minX+maxX)/2, (minY+maxY)/2)`, strategy ZOOM exactly one
fit-to-box call on the resolved box, and strategy NONE no navigation
call. -/
theorem C3_navigation_strategy (s : CanvasMinimapSettings)
    (modifierCtrl : Bool) (b : BoundingBox) :
    (modifierCtrl = true → s.secondaryNavigationStrategy = .PAN →
      navigationActions s modifierCtrl b =
        [NavAction.panTo ((b.minX + b.maxX) / 2) ((b.minY + b.maxY) / 2)]) ∧
    (modifierCtrl = false → s.primaryNavigationStrategy = .PAN →
      navigationActions s modifierCtrl b =
        [NavAction.panTo ((b.minX + b.maxX) / 2) ((b.minY + b.maxY) / 2)]) ∧
    (modifierCtrl = true → s.secondaryNavigationStrategy = .ZOOM →
      navigationActions s modifierCtrl b = [NavAction.zoomToBbox b]) ∧
    (modifierCtrl = false → s.primaryNavigationStrategy = .ZOOM →
      navigationActions s modifierCtrl b = [NavAction.zoomToBbox b]) ∧
    (modifierCtrl = true → s.secondaryNavigationStrategy = .NONE →
      navigationActions s modifierCtrl b = []) ∧
    (modifierCtrl = false → s.primaryNavigationStrategy = .NONE →
      navigationActions s modifierCtrl b = []) := by
  refine ⟨?_, ?_, ?_, ?_, ?_, ?_⟩ <;> intro h1 h2 <;> subst h1 <;>
    simp [navigationActions, h2, NavAction.panTo.injEq] <;>
    constructor <;> ring

/-- C3 witness: with the default settings (primary ZOOM, secondary
PAN), an unmodified click issues exactly one fit-to-box call and a
Ctrl-click exactly one center call. -/
theorem C3_navigation_strategy_witness :
    navigationActions DEFAULT_SETTINGS false ⟨0, 0, 100, 50⟩ =
      [NavAction.zoomToBbox ⟨0, 0, 100, 50⟩] ∧
    navigationActions DEFAULT_SETTINGS true ⟨0, 0, 100, 50⟩ =
      [NavAction.panTo ((0 + 100) / 2) ((0 + 50) / 2)] :=
  ⟨(C3_navigation_strategy DEFAULT_SETTINGS false ⟨0, 0, 100, 50⟩).2.2.2.1
      rfl rfl,
    (C3_navigation_strategy DEFAULT_SETTINGS true ⟨0, 0, 100, 50⟩).1 rfl rfl⟩

/-! ### C4 -/

/-- C4: the edge-anchor resolver returns `center − (width/2, 0)` for
side "left", `center + (width/2, 0)` for "right", `center − (0,
height/2)` for "top", `center + (0, height/2)` for "bottom" (center =
`(x + width/2, y + height/2)`), and for every other side token it
fails with an invalid-argument error instead of silently defaulting
to any anchor. -/
theorem C4_side_anchor (n : CanvasNode) (side : String) :
    (side = "left" → sidePositionOf n side =
      .ok (Vector2.sub ⟨n.x + n.width / 2, n.y + n.height / 2⟩
        ⟨n.width / 2, 0⟩)) ∧
    (side = "right" → sidePositionOf n side =
      .ok (Vector2.add ⟨n.x + n.width / 2, n.y + n.height / 2⟩
        ⟨n.width / 2, 0⟩)) ∧
    (side = "top" → sidePositionOf n side =
      .ok (Vector2.sub ⟨n.x + n.width / 2, n.y + n.height / 2⟩
        ⟨0, n.height / 2⟩)) ∧
    (side = "bottom" → sidePositionOf n side =
      .ok (Vector2.add ⟨n.x + n.width / 2, n.y + n.height / 2⟩
        ⟨0, n.height / 2⟩)) ∧
    (side ≠ "left" → side ≠ "right" → side ≠ "top" → side ≠ "bottom" →
      sidePositionOf n side = .error ("invalid side " ++ side)) := by
  refine ⟨?_, ?_, ?_, ?_, ?_⟩
  · intro h; subst h; rfl
  · intro h; subst h; rfl
  · intro h; subst h; rfl
  · intro h; subst h; rfl
  · intro h1 h2 h3 h4
    unfold sidePositionOf
    simp [beq_iff_eq, h1, h2, h3, h4]

/-- C4 witness: the resolver evaluated at a concrete node for the
side "left" and for the unknown token "center". -/
theorem C4_side_anchor_witness :
    sidePositionOf ⟨"a", 0, 0, 100, 50, false, none⟩ "left" =
      .ok (Vector2.sub ⟨0 + 100 / 2, 0 + 50 / 2⟩ ⟨100 / 2, 0⟩) ∧
    sidePositionOf ⟨"a", 0, 0, 100, 50, false, none⟩ "center" =
      .error ("invalid side " ++ "center") :=
  ⟨(C4_side_anchor ⟨"a", 0, 0, 100, 50, false, none⟩ "left").1 rfl,
    (C4_side_anchor ⟨"a", 0, 0, 100, 50, false, none⟩ "center").2.2.2.2
      (by simp) (by simp) (by simp) (by simp)⟩

/-! ### C5 -/

/-- C5 (counterexample): with the default settings (margin 100) and a
single labelled group `(0,0)`–`(100,50)`, the renderer emits the label
with font size `10 / min(400/100, 300/50) = 5/2`, computed over the
pre-margin content box, while dividing the configured font size by
the uniform scale of the margin-including viewBox projection would
give `10 / min(400/300, 300/250) = 25/3`: the two scales differ, so
the label de-scaling is not computed over the same margin-including
projection box as the coordinate transform. -/
theorem C5_counterexample :
    fgShapes ⟨[⟨"g", 0, 0, 100, 50, true, some "G"⟩], []⟩ DEFAULT_SETTINGS =
      .ok [Shape.groupRect "g" 0 0 100 50,
        Shape.groupLabel "G" 0 0 (5 / 2)] ∧
    DEFAULT_SETTINGS.fontSize /
      viewBoxScale
        (canvasBoundsOf [⟨"g", 0, 0, 100, 50, true, some "G"⟩]
          DEFAULT_SETTINGS.margin) DEFAULT_SETTINGS = 25 / 3 ∧
    (5 / 2 : ℚ) ≠ 25 / 3 := by
  refine ⟨?_, ?_, by norm_num⟩
  · simp [fgShapes, renderEdges, groupsOf, childrenOf, groupShapesOf,
      labelScale, aggregateBBox, aggregateStep, DEFAULT_SETTINGS,
      min_def, max_def]
    norm_num
  · simp [viewBoxScale, canvasBoundsOf, expandBy, aggregateBBox,
      aggregateStep, BoundingBox.width, BoundingBox.height,
      DEFAULT_SETTINGS, min_def, max_def]
    norm_num

/-- C5 (amended): the group-label font size equals the configured
fontSize divided by `min(W / contentWidth, H / contentHeight)`
computed over the *pre-margin* aggregate content box, not over the
margin-including box the viewBox projects; the two scales coincide
exactly when the margin is zero. -/
theorem C5_label_scale (s : CanvasMinimapSettings) (bbox : BoundingBox)
    (n : CanvasNode) (l : String) :
    (n.label = some l → l ≠ "" →
      groupShapesOf bbox s n =
        [Shape.groupRect n.id n.x n.y n.width n.height,
          Shape.groupLabel l n.x n.y (s.fontSize / labelScale bbox s)]) ∧
    (∀ nodes : List CanvasNode, s.margin = 0 →
      labelScale (aggregateBBox nodes) s =
        viewBoxScale (canvasBoundsOf nodes s.margin) s) := by
  constructor
  · intro h1 h2
    simp [groupShapesOf, h1, h2]
  · intro nodes hm
    rw [hm]
    simp [labelScale, viewBoxScale, canvasBoundsOf, expandBy,
      BoundingBox.width, BoundingBox.height]

/-- C5 witness: the amended statement at a concrete labelled group
node with an arbitrary content box, and the zero-margin agreement at
the empty node set. -/
theorem C5_label_scale_witness :
    groupShapesOf ⟨0, 0, 100, 50⟩ DEFAULT_SETTINGS
        ⟨"g", 0, 0, 100, 50, true, some "G"⟩ =
      [Shape.groupRect "g" 0 0 100 50,
        Shape.groupLabel "G" 0 0
          (DEFAULT_SETTINGS.fontSize /
            labelScale ⟨0, 0, 100, 50⟩ DEFAULT_SETTINGS)] ∧
    labelScale (aggregateBBox []) { DEFAULT_SETTINGS with margin := 0 } =
      viewBoxScale (canvasBoundsOf [] 0)
        { DEFAULT_SETTINGS with margin := 0 } :=
  ⟨(C5_label_scale DEFAULT_SETTINGS ⟨0, 0, 100, 50⟩
      ⟨"g", 0, 0, 100, 50, true, some "G"⟩ "G").1 rfl (by simp),
    (C5_label_scale { DEFAULT_SETTINGS with margin := 0 } ⟨0, 0, 100, 50⟩
      ⟨"g", 0, 0, 100, 50, true, some "G"⟩ "G").2 [] rfl⟩

/-! ### C6 -/

theorem renderEdges_shapes (edges : List CanvasEdge) :
    ∀ es, renderEdges edges = .ok es →
      ∀ x ∈ es, ∃ fam fp tp, x = Shape.edgePath fam fp tp := by
  induction edges with
  | nil =>
    intro es h x hx
    simp [renderEdges] at h
    subst h
    cases hx
  | cons e rest ih =>
    intro es h x hx
    unfold renderEdges at h
    cases he : renderEdge e with
    | error msg => rw [he] at h; simp at h
    | ok sh =>
      cases hr : renderEdges rest with
      | error msg => rw [he, hr] at h; simp at h
      | ok shs =>
        rw [he, hr] at h
        simp at h
        subst h
        rcases List.mem_cons.mp hx with h1 | h1
        · subst h1
          unfold renderEdge at he
          cases hf : sidePositionOf e.fromEnd.node e.fromEnd.side with
          | error m => rw [hf] at he; simp at he
          | ok fp =>
            cases ht2 : sidePositionOf e.toEnd.node e.toEnd.side with
            | error m => rw [hf, ht2] at he; simp at he
            | ok tp =>
              rw [hf, ht2] at he
              simp at he
              exact ⟨linkAnchor e.fromSide, fp, tp, he.symm⟩
        · exact ih shs hr x h1

theorem fgShapes_no_viewport (c : Canvas) (s : CanvasMinimapSettings) :
    ∀ fgs, fgShapes c s = .ok fgs → Shape.viewportRect ∉ fgs := by
  intro fgs h hx
  unfold fgShapes at h
  cases he : renderEdges c.edges with
  | error m => rw [he] at h; simp at h
  | ok es =>
    rw [he] at h
    simp at h
    subst h
    rcases List.mem_append.mp hx with h1 | h1
    · rcases List.mem_flatten.mp h1 with ⟨l, hl, hxl⟩
      rcases List.mem_map.mp hl with ⟨n, hn, hln⟩
      rw [← hln] at hxl
      unfold groupShapesOf at hxl
      rcases List.mem_cons.mp hxl with h3 | h3
      · exact Shape.noConfusion h3
      · cases hl2 : n.label with
        | none => rw [hl2] at h3; cases h3
        | some lab =>
          rw [hl2] at h3
          by_cases he2 : lab = ""
          · simp [he2] at h3
          · simp [he2] at h3
    · rcases List.mem_append.mp h1 with h2 | h2
      · rcases List.mem_map.mp h2 with ⟨n, hn, hxn⟩
        exact Shape.noConfusion hxn
      · obtain ⟨fam, fp, tp, hxe⟩ :=
          renderEdges_shapes c.edges es he Shape.viewportRect h2
        exact Shape.noConfusion hxe

/-- C6 (counterexample): on a concrete canvas with one group, one
leaf and one edge, the shapes painted back to front are the
viewport-overlay rectangle *first* (it sits in the `minimap_bg` group,
which precedes `minimap_fg` in document order), then the group rect,
the leaf rect and the edge path; the paint order is not "groups,
leaves, edges, then the viewport overlay topmost". -/
theorem C6_counterexample :
    (renderMinimap emptySvg
        ⟨[⟨"g", 0, 0, 100, 50, true, none⟩, ⟨"a", 200, 0, 10, 10, false, none⟩],
          [⟨⟨⟨"a", 200, 0, 10, 10, false, none⟩, "right"⟩,
            ⟨⟨"g", 0, 0, 100, 50, true, none⟩, "left"⟩, "right"⟩]⟩
        DEFAULT_SETTINGS).map paintOrder =
      .ok [Shape.viewportRect, Shape.groupRect "g" 0 0 100 50,
        Shape.leafRect "a" 200 0 10 10,
        Shape.edgePath .horizontal ⟨210, 5⟩ ⟨0, 25⟩] ∧
    (renderMinimap emptySvg
        ⟨[⟨"g", 0, 0, 100, 50, true, none⟩, ⟨"a", 200, 0, 10, 10, false, none⟩],
          [⟨⟨⟨"a", 200, 0, 10, 10, false, none⟩, "right"⟩,
            ⟨⟨"g", 0, 0, 100, 50, true, none⟩, "left"⟩, "right"⟩]⟩
        DEFAULT_SETTINGS).map paintOrder ≠
      .ok [Shape.groupRect "g" 0 0 100 50, Shape.leafRect "a" 200 0 10 10,
        Shape.edgePath .horizontal ⟨210, 5⟩ ⟨0, 25⟩, Shape.viewportRect] := by
  have h1 : (renderMinimap emptySvg
      ⟨[⟨"g", 0, 0, 100, 50, true, none⟩, ⟨"a", 200, 0, 10, 10, false, none⟩],
        [⟨⟨⟨"a", 200, 0, 10, 10, false, none⟩, "right"⟩,
          ⟨⟨"g", 0, 0, 100, 50, true, none⟩, "left"⟩, "right"⟩]⟩
      DEFAULT_SETTINGS).map paintOrder =
      .ok [Shape.viewportRect, Shape.groupRect "g" 0 0 100 50,
        Shape.leafRect "a" 200 0 10 10,
        Shape.edgePath .horizontal ⟨210, 5⟩ ⟨0, 25⟩] := by
    simp [renderMinimap, fgShapes, renderEdges, renderEdge, sidePositionOf,
      linkAnchor, groupsOf, childrenOf, groupShapesOf, aggregateBBox,
      aggregateStep, canvasBoundsOf, expandBy, paintOrder, emptySvg,
      Except.map, Vector2.add, Vector2.sub, DEFAULT_SETTINGS,
      min_def, max_def]
    norm_num
  refine ⟨h1, ?_⟩
  rw [h1]
  simp

/-- C6 (amended): in every successful full redraw the shapes are
painted back to front as: viewport-overlay rectangle first (it is
appended, alone, into the `minimap_bg` layer, which paints below
`minimap_fg`), then group rectangles (with labels), then leaf
rectangles, then edges — so the viewport overlay is the *bottom-most*
drawn element, below all group, leaf and edge shapes, and occurs
nowhere else in the paint order. -/
theorem C6_paint_order (c : Canvas) (s : CanvasMinimapSettings)
    (st : SvgState) (es : List Shape) :
    renderMinimap emptySvg c s = .ok st →
    renderEdges c.edges = .ok es →
    paintOrder st =
      Shape.viewportRect ::
        (((groupsOf c).map (groupShapesOf (aggregateBBox c.nodes) s)).flatten
          ++ (childrenOf c).map
              (fun n => Shape.leafRect n.id n.x n.y n.width n.height)
          ++ es) ∧
    (paintOrder st).head? = some Shape.viewportRect ∧
    Shape.viewportRect ∉ (paintOrder st).tail := by
  intro h hre
  have hfg : fgShapes c s =
      .ok (((groupsOf c).map (groupShapesOf (aggregateBBox c.nodes) s)).flatten
        ++ (childrenOf c).map
            (fun n => Shape.leafRect n.id n.x n.y n.width n.height)
        ++ es) := by
    unfold fgShapes
    rw [hre]
  unfold renderMinimap at h
  rw [hfg] at h
  simp at h
  rw [← h]
  refine ⟨by simp [paintOrder, emptySvg], by simp [paintOrder, emptySvg], ?_⟩
  have hnv := fgShapes_no_viewport c s _ hfg
  simpa [paintOrder, emptySvg] using hnv

/-- C6 witness: the amended paint-order theorem evaluated on the
concrete one-group, one-leaf, one-edge canvas. -/
theorem C6_paint_order_witness :
    (paintOrder ⟨some ⟨-100, -100, 310, 150⟩,
        [⟨"minimap_bg", [Shape.viewportRect]⟩,
          ⟨"minimap_fg", [Shape.groupRect "g" 0 0 100 50,
            Shape.leafRect "a" 200 0 10 10,
            Shape.edgePath .horizontal ⟨210, 5⟩ ⟨0, 25⟩]⟩]⟩).head? =
      some Shape.viewportRect ∧
    Shape.viewportRect ∉ (paintOrder ⟨some ⟨-100, -100, 310, 150⟩,
        [⟨"minimap_bg", [Shape.viewportRect]⟩,
          ⟨"minimap_fg", [Shape.groupRect "g" 0 0 100 50,
            Shape.leafRect "a" 200 0 10 10,
            Shape.edgePath .horizontal ⟨210, 5⟩ ⟨0, 25⟩]⟩]⟩).tail :=
  (C6_paint_order
    ⟨[⟨"g", 0, 0, 100, 50, true, none⟩, ⟨"a", 200, 0, 10, 10, false, none⟩],
      [⟨⟨⟨"a", 200, 0, 10, 10, false, none⟩, "right"⟩,
        ⟨⟨"g", 0, 0, 100, 50, true, none⟩, "left"⟩, "right"⟩]⟩
    DEFAULT_SETTINGS
    ⟨some ⟨-100, -100, 310, 150⟩,
      [⟨"minimap_bg", [Shape.viewportRect]⟩,
        ⟨"minimap_fg", [Shape.groupRect "g" 0 0 100 50,
          Shape.leafRect "a" 200 0 10 10,
          Shape.edgePath .horizontal ⟨210, 5⟩ ⟨0, 25⟩]⟩]⟩
    [Shape.edgePath .horizontal ⟨210, 5⟩ ⟨0, 25⟩]
    (by simp [renderMinimap, fgShapes, renderEdges, renderEdge,
        sidePositionOf, linkAnchor, groupsOf, childrenOf, groupShapesOf,
        aggregateBBox, aggregateStep, canvasBoundsOf, expandBy, emptySvg,
        Vector2.add, Vector2.sub, DEFAULT_SETTINGS, min_def, max_def] <;>
      norm_num)
    (by simp [renderEdges, renderEdge, sidePositionOf, linkAnchor,
        Vector2.add, Vector2.sub] <;> norm_num)).2

/-! ### C7 -/

/-- C7: a redraw (reload = teardown of the drawn tree, then setup and
re-render) yields a result that is independent of whatever tree was
previously drawn — a full replace, never accumulating shapes — so
re-running it on unchanged input produces the identical state
(identical viewBox projection and identical shape set), and feeding
its own output back in reproduces that output exactly. -/
theorem C7_rerender (st₁ st₂ : Option SvgState) (c : Canvas)
    (s : CanvasMinimapSettings) :
    reloadMinimap st₁ c s = reloadMinimap st₂ c s ∧
    (∀ r, reloadMinimap st₁ c s = .ok r → reloadMinimap r c s = .ok r) := by
  constructor
  · rfl
  · intro r h
    exact h

/-- C7 witness: reloading over a stale drawn tree produces the fresh
render, and reloading again over that very result reproduces it. -/
theorem C7_rerender_witness :
    reloadMinimap
      (some ⟨some ⟨-100, -100, 110, 110⟩,
        [⟨"minimap_bg", [Shape.viewportRect]⟩,
          ⟨"minimap_fg", [Shape.leafRect "a" 0 0 10 10]⟩]⟩)
      ⟨[⟨"a", 0, 0, 10, 10, false, none⟩], []⟩ DEFAULT_SETTINGS =
      .ok (some ⟨some ⟨-100, -100, 110, 110⟩,
        [⟨"minimap_bg", [Shape.viewportRect]⟩,
          ⟨"minimap_fg", [Shape.leafRect "a" 0 0 10 10]⟩]⟩) :=
  (C7_rerender (some ⟨none, [⟨"stale", [Shape.viewportRect]⟩]⟩)
    (some ⟨none, [⟨"stale", [Shape.viewportRect]⟩]⟩)
    ⟨[⟨"a", 0, 0, 10, 10, false, none⟩], []⟩ DEFAULT_SETTINGS).2
    (some ⟨some ⟨-100, -100, 110, 110⟩,
      [⟨"minimap_bg", [Shape.viewportRect]⟩,
        ⟨"minimap_fg", [Shape.leafRect "a" 0 0 10 10]⟩]⟩)
    (by simp [reloadMinimap, setupMinimap, unloadMinimap, renderMinimap,
        fgShapes, renderEdges, groupsOf, childrenOf, aggregateBBox,
        aggregateStep, canvasBoundsOf, expandBy, emptySvg, Except.map,
        DEFAULT_SETTINGS, min_def, max_def] <;> norm_num)

/-! ### C9 -/

/-- C9 (counterexample): with the default margin 100 and zero nodes,
the stored content bounds are `(-100,-100,100,100)`, which
`isValid()` reports as *valid* (not the claimed invalid/empty state),
and the redraw is not a skip: it still emits the background layer
with the viewport-overlay rectangle. -/
theorem C9_counterexample :
    (canvasBoundsOf [] DEFAULT_SETTINGS.margin).isValid = true ∧
    (renderMinimap emptySvg ⟨[], []⟩ DEFAULT_SETTINGS).map paintOrder =
      .ok [Shape.viewportRect] := by
  constructor
  · simp [canvasBoundsOf, expandBy, aggregateBBox, BoundingBox.isValid,
      DEFAULT_SETTINGS]
  · rfl

/-- C9 (amended): on an empty node set a redraw completes without any
error, but it is not a skip: the viewBox is set to the square
`(-margin,-margin)`–`(margin,margin)` (the margin-expanded zero
accumulator box) and the background viewport-overlay rectangle is
still emitted; the stored content bounds are `isValid()`-valid
precisely when the margin is positive — with the default margin 100
they are valid, not in the invalid/empty state. -/
theorem C9_empty_redraw (s : CanvasMinimapSettings) :
    renderMinimap emptySvg ⟨[], []⟩ s =
      .ok ⟨some ⟨0 - s.margin, 0 - s.margin, 0 + s.margin, 0 + s.margin⟩,
        [⟨"minimap_bg", [Shape.viewportRect]⟩, ⟨"minimap_fg", []⟩]⟩ ∧
    ((canvasBoundsOf [] s.margin).isValid = true ↔ 0 < s.margin) := by
  constructor
  · rfl
  · simp [canvasBoundsOf, expandBy, aggregateBBox, BoundingBox.isValid,
      decide_eq_true_eq]

/-! ### C8 -/

/-- C8 (counterexample): a concrete edge whose `from.side` (the value
used to resolve the from-anchor) is "left" but whose top-level
`fromSide` property is "top" is rendered with the *vertical* link
family, although the claim requires the horizontal family whenever
the side used for the from-anchor is "left": the family is chosen
from the separate `fromSide` field, not from the same source-side
value used for the anchor. -/
theorem C8_counterexample :
    renderEdge ⟨⟨⟨"a", 0, 0, 100, 50, false, none⟩, "left"⟩,
        ⟨⟨"a", 0, 0, 100, 50, false, none⟩, "right"⟩, "top"⟩ =
      .ok (Shape.edgePath .vertical ⟨0, 25⟩ ⟨100, 25⟩) ∧
    (⟨⟨⟨"a", 0, 0, 100, 50, false, none⟩, "left"⟩,
        ⟨⟨"a", 0, 0, 100, 50, false, none⟩, "right"⟩,
        "top"⟩ : CanvasEdge).fromEnd.side = "left" ∧
    linkAnchor "left" = .horizontal ∧
    LinkFamily.vertical ≠ LinkFamily.horizontal := by
  refine ⟨?_, rfl, rfl, by simp⟩
  simp [renderEdge, sidePositionOf, linkAnchor, Vector2.add, Vector2.sub]
  norm_num

/-- C8 (amended): every successfully rendered edge carries the two
anchors resolved from `from.side`/`to.side` and the curve family
chosen by `linkAnchor` applied to the edge's *top-level `fromSide`
property* — a field distinct from the `from.side` used for the
from-anchor — with "left"/"right" giving the horizontal family and
every other value of that property the vertical family. -/
theorem C8_link_family (e : CanvasEdge) (sh : Shape) (fp tp : Vector2) :
    renderEdge e = .ok sh →
    sidePositionOf e.fromEnd.node e.fromEnd.side = .ok fp →
    sidePositionOf e.toEnd.node e.toEnd.side = .ok tp →
    sh = Shape.edgePath (linkAnchor e.fromSide) fp tp ∧
    ((e.fromSide = "left" ∨ e.fromSide = "right") →
      linkAnchor e.fromSide = .horizontal) ∧
    (e.fromSide ≠ "left" → e.fromSide ≠ "right" →
      linkAnchor e.fromSide = .vertical) := by
  intro h hf ht2
  unfold renderEdge at h
  rw [hf, ht2] at h
  simp at h
  refine ⟨h.symm, ?_, ?_⟩
  · rintro (h1 | h1) <;> simp [linkAnchor, h1]
  · intro h1 h2
    simp [linkAnchor, h1, h2]

/-- C8 witness: the amended statement evaluated at the concrete edge
with `from.side = "left"` and `fromSide = "top"`. -/
theorem C8_link_family_witness :
    Shape.edgePath .vertical ⟨0, 25⟩ ⟨100, 25⟩ =
      Shape.edgePath
        (linkAnchor (⟨⟨⟨"a", 0, 0, 100, 50, false, none⟩, "left"⟩,
          ⟨⟨"a", 0, 0, 100, 50, false, none⟩, "right"⟩,
          "top"⟩ : CanvasEdge).fromSide) ⟨0, 25⟩ ⟨100, 25⟩ :=
  (C8_link_family ⟨⟨⟨"a", 0, 0, 100, 50, false, none⟩, "left"⟩,
      ⟨⟨"a", 0, 0, 100, 50, false, none⟩, "right"⟩, "top"⟩
    (Shape.edgePath .vertical ⟨0, 25⟩ ⟨100, 25⟩) ⟨0, 25⟩ ⟨100, 25⟩
    (by simp [renderEdge, sidePositionOf, linkAnchor,
        Vector2.add, Vector2.sub] <;> norm_num)
    (by simp [sidePositionOf, Vector2.add, Vector2.sub] <;> norm_num)
    (by simp [sidePositionOf, Vector2.add, Vector2.sub] <;> norm_num)).1

/-! ### C10 -/

/-- C10: the click handler runs to completion whenever every drawn
non-overlay rect's id resolves in the canvas node map; but a click
inside a drawn rect whose id does not resolve makes the handler
dereference the bbox of an undefined lookup and throw, instead of
treating the click as a no-op. -/
theorem C10_click_partiality :
    (∀ (nodes rects : List (String × BoundingBox)) (svgB : BoundingBox)
        (p : Vector2) (modifierCtrl : Bool) (s : CanvasMinimapSettings),
      (∀ r ∈ rects, (lookupNode nodes r.1).isSome) →
      exceptOk (onSvgClick nodes rects svgB p modifierCtrl s) = true) ∧
    onSvgClick [] [("orphan", ⟨0, 0, 10, 10⟩)] ⟨0, 0, 10, 10⟩ ⟨5, 5⟩ false
      DEFAULT_SETTINGS = .error "TypeError: cannot read bbox of undefined" := by
  constructor
  · intro nodes rects svgB p modifierCtrl s hall
    have hts : ∀ t ∈ clickTargets nodes rects p, t.isSome := by
      intro t ht
      unfold clickTargets at ht
      rcases List.mem_map.mp ht with ⟨r, hr, hrt⟩
      rw [← hrt]
      exact hall r (List.mem_of_mem_filter hr)
    unfold onSvgClick
    by_cases hin : svgB.contains p
    · rw [hin]
      simp only [if_true]
      cases hct : clickTargets nodes rects p with
      | nil => simp [exceptOk]
      | cons t0 rest =>
        rw [hct] at hts
        cases t0 with
        | none =>
          have := hts none (List.mem_cons_self _ _)
          simp at this
        | some b0 =>
          obtain ⟨r, hr⟩ :=
            nearestLoop_allSome p (some b0 :: rest) b0 (distSqTo p b0) hts
          simp [hr, exceptOk]
    · simp [hin, exceptOk]
  · simp [onSvgClick, clickTargets, lookupNode, BoundingBox.contains,
      List.filter, nearestLoop]
    norm_num

/-- C10 witness: the totality half evaluated at a concrete click with
a resolvable rect id. -/
theorem C10_click_partiality_witness :
    exceptOk (onSvgClick [("a", ⟨0, 0, 10, 10⟩)] [("a", ⟨0, 0, 10, 10⟩)]
      ⟨0, 0, 10, 10⟩ ⟨5, 5⟩ false DEFAULT_SETTINGS) = true :=
  C10_click_partiality.1 [("a", ⟨0, 0, 10, 10⟩)] [("a", ⟨0, 0, 10, 10⟩)]
    ⟨0, 0, 10, 10⟩ ⟨5, 5⟩ false DEFAULT_SETTINGS
    (by intro r hr
        rcases List.mem_singleton.mp hr with rfl
        simp [lookupNode])
